import Mathlib

/-
Verification of the ShapeShifter canvas component (src/app/canvas/canvas.component.ts)
against its natural-language specification. The component code is shallowly embedded
below; collaborator types that live outside the provided sources (the paths engine,
layers and matrix utilities) are modelled from the specification where a claim
depends on them, and each such definition is marked in its doc comment.
-/

namespace ShapeShifter

/-- Model of the Point class from scripts/common: a 2-D point with rational
coordinates (the TypeScript source uses IEEE doubles; exact rationals are used
here since no claim depends on rounding). -/
@[ext] structure Point where
  x : ℚ
  y : ℚ
  deriving DecidableEq, Repr

/-- Model of the Projection result from scripts/paths: the on-curve point (x, y)
closest to a query point, its parametric location t on the matched command and
the Euclidean distance d from the query point. -/
structure Projection where
  x : ℚ
  y : ℚ
  t : ℚ
  d : ℚ
  deriving DecidableEq, Repr

/-- Model of ProjectionOntoPath from scripts/paths: the subpath index and command
index of the command the projection landed on, plus the projection itself. -/
structure ProjectionOntoPath where
  subIdx : Nat
  cmdIdx : Nat
  projection : Projection
  deriving DecidableEq, Repr

/-- One structural edit operation recorded against a PathMutator, mirroring the
mutator calls issued by canvas.component.ts. -/
inductive PathOp where
  | splitCommand (subIdx cmdIdx : Nat) (t : ℚ)
  | unsplitCommand (subIdx cmdIdx : Nat)
  | splitFilledSubPath (subIdx firstCmdIdx secondCmdIdx : Nat)
  | splitStrokedSubPath (subIdx cmdIdx : Nat)
  deriving DecidableEq, Repr

/-- The command index an edit operation targets (for split/unsplit edits). -/
def PathOp.targetCmdIdx : PathOp → Nat
  | .splitCommand _ cmdIdx _ => cmdIdx
  | .unsplitCommand _ cmdIdx => cmdIdx
  | .splitFilledSubPath _ firstCmdIdx _ => firstCmdIdx
  | .splitStrokedSubPath _ cmdIdx => cmdIdx

/-- Whether an edit operation is a splitCommand call. -/
def PathOp.isSplitCommand : PathOp → Bool
  | .splitCommand _ _ _ => true
  | _ => false

/-- Whether an edit operation is an unsplitCommand call. -/
def PathOp.isUnsplitCommand : PathOp → Bool
  | .unsplitCommand _ _ => true
  | _ => false

/-- Error kinds of the path engine, from section 7 of the specification. -/
inductive PathError where
  | indexOutOfRange
  | invalidParameter
  | notSplit
  | notClosed
  | notMorphable
  deriving DecidableEq, Repr

/-- Outcome of the mouse-up drag-commit block of onMouseUp (select-points mode):
either no state update happens, or updateActivePath is called with the path
produced by the listed mutator operations, or an engine error is raised. -/
inductive CommitOutcome where
  | notCommitted
  | committed (ops : List PathOp)
  | failed (e : PathError)
  deriving DecidableEq, Repr

/-- Embeds onMouseUp lines 985 to 1021 of canvas.component.ts: the split-point
drag commit. projOntoPath is the projection of the mouse-up point onto the
active path, (oldSubIdx, oldCmdIdx) is the dragged split point, and
tempProjOntoPath is the projection recomputed after the unsplit in the
equal-index branch (the source recomputes it against the unsplit path; it is
passed here as a parameter). -/
def dragCommitOutcome (projOntoPath : ProjectionOntoPath)
    (oldSubIdx oldCmdIdx : Nat)
    (tempProjOntoPath : ProjectionOntoPath) : CommitOutcome :=
  let newSubIdx := projOntoPath.subIdx
  let newCmdIdx := projOntoPath.cmdIdx
  if newSubIdx = oldSubIdx then
    CommitOutcome.committed
      (if oldCmdIdx < newCmdIdx then
        [PathOp.splitCommand newSubIdx newCmdIdx projOntoPath.projection.t,
         PathOp.unsplitCommand oldSubIdx oldCmdIdx]
      else if newCmdIdx < oldCmdIdx then
        [PathOp.unsplitCommand oldSubIdx oldCmdIdx,
         PathOp.splitCommand newSubIdx newCmdIdx projOntoPath.projection.t]
      else if oldSubIdx = tempProjOntoPath.subIdx then
        [PathOp.unsplitCommand oldSubIdx oldCmdIdx,
         PathOp.splitCommand tempProjOntoPath.subIdx tempProjOntoPath.cmdIdx
           tempProjOntoPath.projection.t]
      else
        [])
  else
    CommitOutcome.notCommitted

/-- The target command index of the first operation of a committed edit list. -/
def CommitOutcome.firstOpCmdIdx : CommitOutcome → Option Nat
  | .committed ops => ops.head?.map PathOp.targetCmdIdx
  | _ => none

/-- The target command index of the second operation of a committed edit list. -/
def CommitOutcome.secondOpCmdIdx : CommitOutcome → Option Nat
  | .committed ops => ops[1]?.map PathOp.targetCmdIdx
  | _ => none

/-- C1: whenever the drag commit combines a splitCommand and an unsplitCommand on
the same subpath with distinct command indices, exactly two edits are issued and
the edit with the higher command index comes first: split before unsplit when
newCmdIdx is greater than oldCmdIdx, unsplit before split when it is smaller, so
the lower-index edit is never issued first. -/
theorem c1_drag_commit_higher_index_first
    (projOntoPath : ProjectionOntoPath) (oldSubIdx oldCmdIdx : Nat)
    (tempProjOntoPath : ProjectionOntoPath)
    (hsub : projOntoPath.subIdx = oldSubIdx)
    (hne : projOntoPath.cmdIdx ≠ oldCmdIdx) :
    dragCommitOutcome projOntoPath oldSubIdx oldCmdIdx tempProjOntoPath =
      CommitOutcome.committed
        (if oldCmdIdx < projOntoPath.cmdIdx then
          [PathOp.splitCommand projOntoPath.subIdx projOntoPath.cmdIdx
            projOntoPath.projection.t,
           PathOp.unsplitCommand oldSubIdx oldCmdIdx]
        else
          [PathOp.unsplitCommand oldSubIdx oldCmdIdx,
           PathOp.splitCommand projOntoPath.subIdx projOntoPath.cmdIdx
             projOntoPath.projection.t]) ∧
    (dragCommitOutcome projOntoPath oldSubIdx oldCmdIdx
      tempProjOntoPath).firstOpCmdIdx = some (max projOntoPath.cmdIdx oldCmdIdx) ∧
    (dragCommitOutcome projOntoPath oldSubIdx oldCmdIdx
      tempProjOntoPath).secondOpCmdIdx = some (min projOntoPath.cmdIdx oldCmdIdx) := by
  rcases Nat.lt_or_ge oldCmdIdx projOntoPath.cmdIdx with hlt | hge
  · simp [dragCommitOutcome, hsub, hlt, CommitOutcome.firstOpCmdIdx,
      CommitOutcome.secondOpCmdIdx, PathOp.targetCmdIdx,
      Nat.max_eq_left (Nat.le_of_lt hlt), Nat.min_eq_right (Nat.le_of_lt hlt)]
  · have hlt : projOntoPath.cmdIdx < oldCmdIdx := by
      rcases Nat.lt_or_ge projOntoPath.cmdIdx oldCmdIdx with h | h
      · exact h
      · exact absurd (Nat.le_antisymm hge h) hne
    have hnotlt : ¬ oldCmdIdx < projOntoPath.cmdIdx := Nat.not_lt.mpr (Nat.le_of_lt hlt)
    simp [dragCommitOutcome, hsub, hnotlt, hlt, CommitOutcome.firstOpCmdIdx,
      CommitOutcome.secondOpCmdIdx, PathOp.targetCmdIdx,
      Nat.max_eq_right (Nat.le_of_lt hlt), Nat.min_eq_left (Nat.le_of_lt hlt)]

/-- Witness for C1 at a concrete drag: the new command index 3 exceeds the old
index 1 on subpath 0, and the split (index 3) is issued before the unsplit. -/
theorem c1_drag_commit_higher_index_first_witness :
    dragCommitOutcome ⟨0, 3, ⟨5, 6, 1/2, 0⟩⟩ 0 1 ⟨0, 0, ⟨0, 0, 0, 0⟩⟩ =
      CommitOutcome.committed
        (if 1 < (3 : Nat) then
          [PathOp.splitCommand 0 3 (1/2), PathOp.unsplitCommand 0 1]
        else
          [PathOp.unsplitCommand 0 1, PathOp.splitCommand 0 3 (1/2)]) ∧
    (dragCommitOutcome ⟨0, 3, ⟨5, 6, 1/2, 0⟩⟩ 0 1
      ⟨0, 0, ⟨0, 0, 0, 0⟩⟩).firstOpCmdIdx = some (max 3 1) ∧
    (dragCommitOutcome ⟨0, 3, ⟨5, 6, 1/2, 0⟩⟩ 0 1
      ⟨0, 0, ⟨0, 0, 0, 0⟩⟩).secondOpCmdIdx = some (min 3 1) :=
  c1_drag_commit_higher_index_first ⟨0, 3, ⟨5, 6, 1/2, 0⟩⟩ 0 1
    ⟨0, 0, ⟨0, 0, 0, 0⟩⟩ rfl (by decide)

/-- Counterexample to C2 as stated: in the equal-index branch with the recomputed
projection landing on a different subpath (subIdx 1 instead of 0), the code does
not fail with IndexOutOfRangeError; it commits the rebuilt, unedited starting
path (an empty operation list) as a silent no-op. -/
theorem c2_equal_index_subidx_change_not_an_error :
    dragCommitOutcome ⟨0, 2, ⟨5, 6, 1/2, 0⟩⟩ 0 2 ⟨1, 0, ⟨0, 0, 1/4, 0⟩⟩ =
      CommitOutcome.committed [] ∧
    dragCommitOutcome ⟨0, 2, ⟨5, 6, 1/2, 0⟩⟩ 0 2 ⟨1, 0, ⟨0, 0, 1/4, 0⟩⟩ ≠
      CommitOutcome.failed PathError.indexOutOfRange := by
  constructor
  · rfl
  · decide

/-- C2 amended: in the equal-index drag-commit case, when the projection
recomputed after the unsplit lands on a different subpath index than the
original, the edit is silently abandoned: the mutator is rebuilt from the
unchanged starting path and committed with no operations, and no
IndexOutOfRangeError (nor any other engine error) is raised. -/
theorem c2_equal_index_subidx_change_silent_noop
    (projOntoPath : ProjectionOntoPath) (oldSubIdx oldCmdIdx : Nat)
    (tempProjOntoPath : ProjectionOntoPath)
    (hsub : projOntoPath.subIdx = oldSubIdx)
    (hcmd : projOntoPath.cmdIdx = oldCmdIdx)
    (htmp : oldSubIdx ≠ tempProjOntoPath.subIdx) :
    dragCommitOutcome projOntoPath oldSubIdx oldCmdIdx tempProjOntoPath =
      CommitOutcome.committed [] := by
  simp [dragCommitOutcome, hsub, hcmd, htmp]

/-- Witness for the amended C2 at a concrete input: equal command indices, and
the recomputed projection moves from subpath 0 to subpath 1. -/
theorem c2_equal_index_subidx_change_silent_noop_witness :
    dragCommitOutcome ⟨0, 2, ⟨5, 6, 1/2, 0⟩⟩ 0 2 ⟨1, 0, ⟨0, 0, 1/4, 0⟩⟩ =
      CommitOutcome.committed [] :=
  c2_equal_index_subidx_change_silent_noop ⟨0, 2, ⟨5, 6, 1/2, 0⟩⟩ 0 2
    ⟨1, 0, ⟨0, 0, 1/4, 0⟩⟩ rfl rfl (by decide)

/-- The five command kinds of the path data model (section 3 of the
specification): move, line, quadratic curve, cubic curve, close. -/
inductive SvgChar where
  | move
  | line
  | quad
  | cubic
  | close
  deriving DecidableEq, Repr

/-- Modelled from the spec: a Command of the paths engine (whose source is not
part of the provided files): a kind tag, an ordered list of control points, and
the introduced-by-split marker. -/
structure Command where
  svgChar : SvgChar
  points : List Point
  isSplit : Bool := false
  deriving DecidableEq, Repr

/-- Modelled from the spec: a SubPath is an ordered sequence of Commands. -/
structure SubPath where
  commands : List Command
  deriving DecidableEq, Repr

/-- Modelled from the spec: a Path is an ordered collection of SubPaths. -/
structure Path where
  subPaths : List SubPath
  deriving DecidableEq, Repr

/-- Modelled from the spec: a subpath is closed when its last command is a close
whose end point equals the first command start point. -/
def SubPath.isClosed (sp : SubPath) : Bool :=
  match sp.commands.getLast?, sp.commands.head? with
  | some lastCmd, some firstCmd =>
      decide (lastCmd.svgChar = SvgChar.close) &&
      decide (lastCmd.points.getLast? = firstCmd.points.head?)
  | _, _ => false

/-- The sequence of command kinds of a subpath. -/
def SubPath.kindSeq (sp : SubPath) : List SvgChar :=
  sp.commands.map Command.svgChar

/-- Modelled from the spec (section 4.5): two subpaths are morphable when they
have the same sequence of command kinds and matching closedness. -/
def SubPath.morphableWith (a b : SubPath) : Bool :=
  decide (a.kindSeq = b.kindSeq) && decide (a.isClosed = b.isClosed)

/-- Modelled from the spec (section 4.5): two Paths are morphable iff they have
the same number of subpaths and each corresponding subpath pair has the same
command-kind sequence and matching closedness. -/
def Path.isMorphableWith (a b : Path) : Bool :=
  decide (a.subPaths.length = b.subPaths.length) &&
  (a.subPaths.zip b.subPaths).all fun ss => ss.1.morphableWith ss.2

/-- Linear interpolation of two points by a fraction. -/
def lerpPoint (p q : Point) (fraction : ℚ) : Point :=
  ⟨p.x + (q.x - p.x) * fraction, p.y + (q.y - p.y) * fraction⟩

/-- Pointwise linear interpolation of two commands, kind copied from the first. -/
def Command.interpolate (a b : Command) (fraction : ℚ) : Command :=
  ⟨a.svgChar, (a.points.zip b.points).map fun pq => lerpPoint pq.1 pq.2 fraction,
    a.isSplit⟩

/-- Pointwise linear interpolation of two subpaths. -/
def SubPath.interpolate (a b : SubPath) (fraction : ℚ) : SubPath :=
  ⟨(a.commands.zip b.commands).map fun cc => cc.1.interpolate cc.2 fraction⟩

/-- Modelled from the spec (section 4.5): interpolate requires isMorphableWith
to hold, otherwise it fails with NotMorphableError; when morphable it produces
the path whose every control point is the linear interpolation of the
corresponding points, for any fraction (extrapolation included). -/
def Path.interpolate (start finish : Path) (fraction : ℚ) : Except PathError Path :=
  if start.isMorphableWith finish then
    Except.ok ⟨(start.subPaths.zip finish.subPaths).map
      fun ss => ss.1.interpolate ss.2 fraction⟩
  else
    Except.error PathError.notMorphable

/-- Model of a PathLayer from scripts/layers: its path data and the fill/stroke
attributes the component consults (isFilled, isStroked, strokeWidth). -/
structure PathLayer where
  pathData : Path
  fill : Bool
  stroke : Bool
  strokeWidth : ℚ
  deriving DecidableEq, Repr

/-- Whether the layer is filled. -/
def PathLayer.isFilled (l : PathLayer) : Bool := l.fill

/-- Whether the layer is stroked. -/
def PathLayer.isStroked (l : PathLayer) : Bool := l.stroke

/-- Layer-level morphability, delegating to the path data. -/
def PathLayer.isMorphableWith (a b : PathLayer) : Bool :=
  a.pathData.isMorphableWith b.pathData

/-- Embeds the path-layer branch of the interpolatePreview callback
(canvas.component.ts lines 162 to 172): interpolate(start, end, fraction) is
invoked only when the start, preview and end path layers all exist and
startPathLayer.isMorphableWith(endPathLayer) holds; the value is the result of
that call, or none when the guard rejects and no call is made. -/
def interpolatePreviewResult (startLayer previewLayer endLayer : Option PathLayer)
    (fraction : ℚ) : Option (Except PathError Path) :=
  match startLayer, previewLayer, endLayer with
  | some s, some _, some e =>
      if s.isMorphableWith e then
        some (Path.interpolate s.pathData e.pathData fraction)
      else
        none
  | _, _, _ => none

/-- Whether an engine result is a success (used to state that a failure branch
is not taken). -/
def isOkResult : Except PathError Path → Bool
  | Except.ok _ => true
  | Except.error _ => false

/-- C3: under the interpolatePreview guard, every interpolate call the preview
canvas actually makes succeeds; the NotMorphableError branch of interpolate is
unreachable for every animated fraction value. -/
theorem c3_interpolate_preview_guard_excludes_morph_error
    (startLayer previewLayer endLayer : Option PathLayer) (fraction : ℚ)
    (r : Except PathError Path)
    (hcall : interpolatePreviewResult startLayer previewLayer endLayer fraction =
      some r) :
    isOkResult r = true := by
  cases startLayer with
  | none => simp [interpolatePreviewResult] at hcall
  | some s =>
    cases previewLayer with
    | none => simp [interpolatePreviewResult] at hcall
    | some pv =>
      cases endLayer with
      | none => simp [interpolatePreviewResult] at hcall
      | some e =>
        by_cases hm : s.isMorphableWith e = true
        · have hm2 : s.pathData.isMorphableWith e.pathData = true := hm
          simp [interpolatePreviewResult, hm, Path.interpolate, hm2] at hcall
          rw [← hcall]
          rfl
        · simp [interpolatePreviewResult, hm] at hcall

/-- Witness for C3: two morphable single-line layers; the call made under the
guard returns an interpolated path, not an error. -/
theorem c3_interpolate_preview_guard_excludes_morph_error_witness :
    isOkResult
      (Path.interpolate
        ⟨[⟨[⟨SvgChar.move, [⟨0, 0⟩], false⟩, ⟨SvgChar.line, [⟨0, 0⟩, ⟨10, 0⟩], false⟩]⟩]⟩
        ⟨[⟨[⟨SvgChar.move, [⟨0, 0⟩], false⟩, ⟨SvgChar.line, [⟨0, 0⟩, ⟨0, 10⟩], false⟩]⟩]⟩
        (1/2)) = true :=
  c3_interpolate_preview_guard_excludes_morph_error
    (some ⟨⟨[⟨[⟨SvgChar.move, [⟨0, 0⟩], false⟩, ⟨SvgChar.line, [⟨0, 0⟩, ⟨10, 0⟩], false⟩]⟩]⟩,
      true, false, 0⟩)
    (some ⟨⟨[⟨[⟨SvgChar.move, [⟨0, 0⟩], false⟩, ⟨SvgChar.line, [⟨0, 0⟩, ⟨5, 5⟩], false⟩]⟩]⟩,
      true, false, 0⟩)
    (some ⟨⟨[⟨[⟨SvgChar.move, [⟨0, 0⟩], false⟩, ⟨SvgChar.line, [⟨0, 0⟩, ⟨0, 10⟩], false⟩]⟩]⟩,
      true, false, 0⟩)
    (1/2) _ rfl

/-- Modelled from the spec (section 4.1): splitAt partitions a command at
parameter t into two halves. Quadratic and cubic commands use De Casteljau
subdivision; line and close commands (and the defaulted remaining kinds) are
partitioned into two line commands at the interpolated point. The new first
half carries split marker = true, the second half keeps the original marker. -/
def Command.splitAt (c : Command) (t : ℚ) : Command × Command :=
  match c.svgChar, c.points with
  | SvgChar.quad, [p0, p1, p2] =>
      let q0 := lerpPoint p0 p1 t
      let q1 := lerpPoint p1 p2 t
      let r0 := lerpPoint q0 q1 t
      (⟨SvgChar.quad, [p0, q0, r0], true⟩, ⟨SvgChar.quad, [r0, q1, p2], c.isSplit⟩)
  | SvgChar.cubic, [p0, p1, p2, p3] =>
      let q0 := lerpPoint p0 p1 t
      let q1 := lerpPoint p1 p2 t
      let q2 := lerpPoint p2 p3 t
      let r0 := lerpPoint q0 q1 t
      let r1 := lerpPoint q1 q2 t
      let s0 := lerpPoint r0 r1 t
      (⟨SvgChar.cubic, [p0, q0, r0, s0], true⟩,
       ⟨SvgChar.cubic, [s0, r1, q2, p3], c.isSplit⟩)
  | _, ps =>
      let a := ps.head?.getD ⟨0, 0⟩
      let b := ps.getLast?.getD ⟨0, 0⟩
      let mid := lerpPoint a b t
      (⟨SvgChar.line, [a, mid], true⟩, ⟨SvgChar.line, [mid, b], c.isSplit⟩)

/-- The first half produced by splitAt always carries the split marker. -/
theorem Command.splitAt_fst_isSplit (c : Command) (t : ℚ) :
    (c.splitAt t).1.isSplit = true := by
  unfold Command.splitAt
  split <;> rfl

/-- Modelled from the spec (section 4.3): splitCommand(subIdx, cmdIdx, t)
validates the parameter (InvalidParameterError outside the open unit interval)
and the indices (IndexOutOfRangeError), then replaces the command at cmdIdx in
the addressed subpath with the two halves of splitAt. -/
def Path.splitCommand (p : Path) (subIdx cmdIdx : Nat) (t : ℚ) :
    Except PathError Path :=
  if t ≤ 0 ∨ 1 ≤ t then
    Except.error PathError.invalidParameter
  else
    match p.subPaths[subIdx]? with
    | none => Except.error PathError.indexOutOfRange
    | some sp =>
      match sp.commands[cmdIdx]? with
      | none => Except.error PathError.indexOutOfRange
      | some c =>
        Except.ok ⟨p.subPaths.set subIdx
          ⟨sp.commands.take cmdIdx ++
            (c.splitAt t).1 :: (c.splitAt t).2 :: sp.commands.drop (cmdIdx + 1)⟩⟩

/-- Embeds onMouseUp lines 1069 to 1084 of canvas.component.ts: given the two
recorded projection points on a filled subpath, the component swaps them when
the first has the larger command index, or the same command index and the
larger t, then issues splitCommand at the first point, splitCommand at the
second command index plus one, and splitFilledSubPath with those indices. -/
def filledSubPathSplitOps (subIdx : Nat) (firstCmdIdx0 secondCmdIdx0 : Nat)
    (firstT0 secondT0 : ℚ) : List PathOp :=
  let ordered :=
    if firstCmdIdx0 > secondCmdIdx0 ∨
        (firstCmdIdx0 = secondCmdIdx0 ∧ firstT0 > secondT0) then
      ((secondCmdIdx0, secondT0), (firstCmdIdx0, firstT0))
    else
      ((firstCmdIdx0, firstT0), (secondCmdIdx0, secondT0))
  [PathOp.splitCommand subIdx ordered.1.1 ordered.1.2,
   PathOp.splitCommand subIdx (ordered.2.1 + 1) ordered.2.2,
   PathOp.splitFilledSubPath subIdx ordered.1.1 (ordered.2.1 + 1)]

/-- C4: splitCommand replaces the command at cmdIdx with the two splitAt halves
(the first marked as split) and shifts every subsequent command index in that
subpath by one, leaving other subpaths untouched; and the component orders the
two filled-subpath projection points by (cmdIdx, t) ascending, splits the lower
point first, then the higher command index plus one, and passes
(firstCmdIdx, secondCmdIdx + 1) to splitFilledSubPath. -/
theorem c4_split_command_shift_and_filled_split_order
    (p p' : Path) (subIdx cmdIdx : Nat) (t : ℚ)
    (h : Path.splitCommand p subIdx cmdIdx t = Except.ok p') :
    ((∀ i, i ≠ subIdx → p'.subPaths[i]? = p.subPaths[i]?) ∧
     (∀ sp c, p.subPaths[subIdx]? = some sp → sp.commands[cmdIdx]? = some c →
       ∃ sp2, p'.subPaths[subIdx]? = some sp2 ∧
         sp2.commands.length = sp.commands.length + 1 ∧
         sp2.commands[cmdIdx]? = some (c.splitAt t).1 ∧
         sp2.commands[cmdIdx + 1]? = some (c.splitAt t).2 ∧
         (c.splitAt t).1.isSplit = true ∧
         (∀ j, j < cmdIdx → sp2.commands[j]? = sp.commands[j]?) ∧
         (∀ j, cmdIdx < j → sp2.commands[j + 1]? = sp.commands[j]?))) ∧
    (∀ subIdx2 firstCmdIdx0 secondCmdIdx0 (firstT0 secondT0 : ℚ),
      ∃ f s,
        filledSubPathSplitOps subIdx2 firstCmdIdx0 secondCmdIdx0 firstT0 secondT0 =
          [PathOp.splitCommand subIdx2 f.1 f.2,
           PathOp.splitCommand subIdx2 (s.1 + 1) s.2,
           PathOp.splitFilledSubPath subIdx2 f.1 (s.1 + 1)] ∧
        (f.1 < s.1 ∨ (f.1 = s.1 ∧ f.2 ≤ s.2)) ∧
        ((f = (firstCmdIdx0, firstT0) ∧ s = (secondCmdIdx0, secondT0)) ∨
         (f = (secondCmdIdx0, secondT0) ∧ s = (firstCmdIdx0, firstT0)))) := by
  constructor
  · unfold Path.splitCommand at h
    split at h
    · exact absurd h (by simp)
    · split at h
      · exact absurd h (by simp)
      · rename_i sp0 hs0
        split at h
        · exact absurd h (by simp)
        · rename_i c0 hc0
          have hp' : p' = ⟨p.subPaths.set subIdx
              ⟨sp0.commands.take cmdIdx ++
                (c0.splitAt t).1 :: (c0.splitAt t).2 ::
                  sp0.commands.drop (cmdIdx + 1)⟩⟩ := by
            cases h
            rfl
          subst hp'
          constructor
          · intro i hi
            exact List.getElem?_set_ne (Ne.symm hi)
          · intro sp c hsp hc
            have hspeq : sp = sp0 := by
              rw [hsp] at hs0
              exact Option.some_injective _ hs0
            subst hspeq
            have hceq : c = c0 := by
              rw [hc] at hc0
              exact Option.some_injective _ hc0
            subst hceq
            have hsublt : subIdx < p.subPaths.length := by
              by_contra hnot
              rw [List.getElem?_eq_none (Nat.le_of_not_lt hnot)] at hsp
              cases hsp
            have hcmdlt : cmdIdx < sp.commands.length := by
              by_contra hnot
              rw [List.getElem?_eq_none (Nat.le_of_not_lt hnot)] at hc
              cases hc
            have hlentake : (sp.commands.take cmdIdx).length = cmdIdx := by
              rw [List.length_take]
              omega
            refine ⟨_, List.getElem?_set_self hsublt, ?_, ?_, ?_,
              Command.splitAt_fst_isSplit c t, ?_, ?_⟩
            · simp only [List.length_append, List.length_cons, List.length_drop, hlentake]
              omega
            · rw [List.getElem?_append_right (le_of_eq hlentake), hlentake]
              simp
            · rw [List.getElem?_append_right (by omega), hlentake]
              have hk : cmdIdx + 1 - cmdIdx = 1 := by omega
              rw [hk]
              simp
            · intro j hj
              rw [List.getElem?_append, if_pos (by omega), List.getElem?_take, if_pos hj]
            · intro j hj
              rw [List.getElem?_append_right (by omega), hlentake]
              have hk : j + 1 - cmdIdx = (j - cmdIdx - 1) + 2 := by omega
              rw [hk]
              simp only [List.getElem?_cons_succ]
              rw [List.getElem?_drop]
              congr 1
              omega
  · intro subIdx2 firstCmdIdx0 secondCmdIdx0 firstT0 secondT0
    by_cases hswap : firstCmdIdx0 > secondCmdIdx0 ∨
        (firstCmdIdx0 = secondCmdIdx0 ∧ firstT0 > secondT0)
    · refine ⟨(secondCmdIdx0, secondT0), (firstCmdIdx0, firstT0), ?_, ?_, Or.inr ⟨rfl, rfl⟩⟩
      · simp [filledSubPathSplitOps, hswap]
      · rcases hswap with hlt | ⟨heq, hgt⟩
        · exact Or.inl hlt
        · exact Or.inr ⟨heq.symm, le_of_lt hgt⟩
    · refine ⟨(firstCmdIdx0, firstT0), (secondCmdIdx0, secondT0), ?_, ?_, Or.inl ⟨rfl, rfl⟩⟩
      · simp [filledSubPathSplitOps, hswap]
      · push_neg at hswap
        rcases Nat.lt_or_eq_of_le hswap.1 with hlt | heq
        · exact Or.inl hlt
        · exact Or.inr ⟨heq, hswap.2 heq⟩

/-- Witness for C4: splitting the line command at index 1 of a one-subpath path
at t = 1/2 succeeds, and subpath index 1 (out of range on both sides) is left
untouched by the edit. -/
theorem c4_split_command_shift_and_filled_split_order_witness :
    (Path.mk [⟨[⟨SvgChar.move, [⟨0, 0⟩], false⟩,
      ⟨SvgChar.line, [⟨0, 0⟩, ⟨5, 0⟩], true⟩,
      ⟨SvgChar.line, [⟨5, 0⟩, ⟨10, 0⟩], false⟩]⟩]).subPaths[1]? =
    (Path.mk [⟨[⟨SvgChar.move, [⟨0, 0⟩], false⟩,
      ⟨SvgChar.line, [⟨0, 0⟩, ⟨10, 0⟩], false⟩]⟩]).subPaths[1]? :=
  (c4_split_command_shift_and_filled_split_order
    ⟨[⟨[⟨SvgChar.move, [⟨0, 0⟩], false⟩,
      ⟨SvgChar.line, [⟨0, 0⟩, ⟨10, 0⟩], false⟩]⟩]⟩
    ⟨[⟨[⟨SvgChar.move, [⟨0, 0⟩], false⟩,
      ⟨SvgChar.line, [⟨0, 0⟩, ⟨5, 0⟩], true⟩,
      ⟨SvgChar.line, [⟨5, 0⟩, ⟨10, 0⟩], false⟩]⟩]⟩
    0 1 (1/2) (by
      simp [Path.splitCommand, Command.splitAt, lerpPoint]
      norm_num)).1.1 1 (by decide)

/-- Modelled from the spec (section 6) and the Matrix usage in the component: a
2-D affine matrix with entries a b c d e f in the canvas convention, mapping
(x, y) to (a x + c y + e, b x + d y + f). -/
structure Matrix where
  a : ℚ
  b : ℚ
  c : ℚ
  d : ℚ
  e : ℚ
  f : ℚ
  deriving DecidableEq, Repr

/-- The identity affine matrix. -/
def Matrix.identity : Matrix := ⟨1, 0, 0, 1, 0, 0⟩

/-- Affine matrix composition: (m1.dot m2) applies m2 first, then m1. -/
def Matrix.dot (m1 m2 : Matrix) : Matrix :=
  ⟨m1.a * m2.a + m1.c * m2.b,
   m1.b * m2.a + m1.d * m2.b,
   m1.a * m2.c + m1.c * m2.d,
   m1.b * m2.c + m1.d * m2.d,
   m1.a * m2.e + m1.c * m2.f + m1.e,
   m1.b * m2.e + m1.d * m2.f + m1.f⟩

/-- Determinant of the linear part of an affine matrix. -/
def Matrix.determinant (m : Matrix) : ℚ := m.a * m.d - m.b * m.c

/-- Modelled from scripts/common: the affine inverse, defined whenever the
determinant is nonzero. -/
def Matrix.invert (m : Matrix) : Matrix :=
  ⟨m.d / m.determinant,
   -m.b / m.determinant,
   -m.c / m.determinant,
   m.a / m.determinant,
   (m.c * m.f - m.d * m.e) / m.determinant,
   (m.b * m.e - m.a * m.f) / m.determinant⟩

/-- Modelled from scripts/common: Matrix.flatten composes an ordered matrix
list into a single affine matrix. -/
def Matrix.flatten (ms : List Matrix) : Matrix :=
  ms.foldl Matrix.dot Matrix.identity

namespace MathUtil

/-- Modelled from scripts/common: MathUtil.transformPoint applies an affine
matrix to a point. -/
def transformPoint (p : Point) (m : Matrix) : Point :=
  ⟨m.a * p.x + m.c * p.y + m.e, m.b * p.x + m.d * p.y + m.f⟩

/-- Modelled from scripts/common: MathUtil.flattenTransforms is matrix
flattening. -/
def flattenTransforms (ms : List Matrix) : Matrix := Matrix.flatten ms

end MathUtil

/-- Applying the inverse and then the matrix itself returns the original point,
whenever the matrix is invertible. -/
theorem transformPoint_invert_cancel (m : Matrix) (h : m.determinant ≠ 0)
    (p : Point) :
    MathUtil.transformPoint (MathUtil.transformPoint p m.invert) m = p := by
  have hd : m.a * m.d - m.b * m.c ≠ 0 := h
  unfold MathUtil.transformPoint Matrix.invert Matrix.determinant
  ext
  · field_simp
    ring
  · field_simp
    ring

/-- Embeds performHitTest lines 1131 to 1134 of canvas.component.ts: the point
handed to Path.hitTest is the mouse point transformed by the inverse of the
flattened, reversed ancestor transform list. -/
def performHitTestPoint (transforms : List Matrix) (mousePoint : Point) : Point :=
  MathUtil.transformPoint mousePoint (Matrix.flatten transforms.reverse).invert

/-- Embeds calculateProjectionOntoPath lines 1317 to 1326: the point handed to
Path.project is the mouse point transformed by the inverse of the flattened,
reversed ancestor transform list. -/
def calculateProjectionOntoPathPoint (transforms : List Matrix)
    (mousePoint : Point) : Point :=
  MathUtil.transformPoint mousePoint
    (MathUtil.flattenTransforms transforms.reverse).invert

/-- Embeds performSubPathHitTest lines 1230 to 1243: the point handed to
Path.hitTest is the mouse point transformed the same way. -/
def performSubPathHitTestPoint (transforms : List Matrix)
    (mousePoint : Point) : Point :=
  MathUtil.transformPoint mousePoint
    (MathUtil.flattenTransforms transforms.reverse).invert

/-- C5: every point the component passes to project or hitTest is the mouse
point carried into the path-local coordinate space: it equals the mouse point
transformed by the inverse of the flattened reversed ancestor transform list,
and mapping it forward through that flattened transform recovers the original
CSS-derived mouse point (so the untransformed mouse point itself is what the
local point corresponds to on screen, never what is passed in). -/
theorem c5_project_hittest_points_in_local_coords
    (transforms : List Matrix) (mousePoint : Point)
    (h : (Matrix.flatten transforms.reverse).determinant ≠ 0) :
    performHitTestPoint transforms mousePoint =
      MathUtil.transformPoint mousePoint (Matrix.flatten transforms.reverse).invert ∧
    calculateProjectionOntoPathPoint transforms mousePoint =
      MathUtil.transformPoint mousePoint (Matrix.flatten transforms.reverse).invert ∧
    performSubPathHitTestPoint transforms mousePoint =
      MathUtil.transformPoint mousePoint (Matrix.flatten transforms.reverse).invert ∧
    MathUtil.transformPoint (performHitTestPoint transforms mousePoint)
      (Matrix.flatten transforms.reverse) = mousePoint ∧
    MathUtil.transformPoint (calculateProjectionOntoPathPoint transforms mousePoint)
      (Matrix.flatten transforms.reverse) = mousePoint ∧
    MathUtil.transformPoint (performSubPathHitTestPoint transforms mousePoint)
      (Matrix.flatten transforms.reverse) = mousePoint :=
  ⟨rfl, rfl, rfl,
   transformPoint_invert_cancel _ h mousePoint,
   transformPoint_invert_cancel _ h mousePoint,
   transformPoint_invert_cancel _ h mousePoint⟩

/-- Witness for C5 at a concrete invertible transform list and mouse point. -/
theorem c5_project_hittest_points_in_local_coords_witness :
    performHitTestPoint [⟨2, 0, 0, 3, 4, 5⟩] ⟨7, 11⟩ =
      MathUtil.transformPoint ⟨7, 11⟩
        (Matrix.flatten (List.reverse [⟨2, 0, 0, 3, 4, 5⟩])).invert ∧
    calculateProjectionOntoPathPoint [⟨2, 0, 0, 3, 4, 5⟩] ⟨7, 11⟩ =
      MathUtil.transformPoint ⟨7, 11⟩
        (Matrix.flatten (List.reverse [⟨2, 0, 0, 3, 4, 5⟩])).invert ∧
    performSubPathHitTestPoint [⟨2, 0, 0, 3, 4, 5⟩] ⟨7, 11⟩ =
      MathUtil.transformPoint ⟨7, 11⟩
        (Matrix.flatten (List.reverse [⟨2, 0, 0, 3, 4, 5⟩])).invert ∧
    MathUtil.transformPoint (performHitTestPoint [⟨2, 0, 0, 3, 4, 5⟩] ⟨7, 11⟩)
      (Matrix.flatten (List.reverse [⟨2, 0, 0, 3, 4, 5⟩])) = ⟨7, 11⟩ ∧
    MathUtil.transformPoint
      (calculateProjectionOntoPathPoint [⟨2, 0, 0, 3, 4, 5⟩] ⟨7, 11⟩)
      (Matrix.flatten (List.reverse [⟨2, 0, 0, 3, 4, 5⟩])) = ⟨7, 11⟩ ∧
    MathUtil.transformPoint
      (performSubPathHitTestPoint [⟨2, 0, 0, 3, 4, 5⟩] ⟨7, 11⟩)
      (Matrix.flatten (List.reverse [⟨2, 0, 0, 3, 4, 5⟩])) = ⟨7, 11⟩ :=
  c5_project_hittest_points_in_local_coords [⟨2, 0, 0, 3, 4, 5⟩] ⟨7, 11⟩
    (by simp [Matrix.flatten, Matrix.dot, Matrix.identity, Matrix.determinant])

/-- Group-layer transform attributes (pivot, translation, rotation in degrees,
scale) read by getTransformsForLayer. -/
structure GroupProps where
  pivotX : ℚ
  pivotY : ℚ
  translateX : ℚ
  translateY : ℚ
  rotation : ℚ
  scaleX : ℚ
  scaleY : ℚ
  deriving DecidableEq, Repr

/-- Model of the layer tree from scripts/layers: every layer carries an id and
a child list; a layer is a GroupLayer exactly when it carries group transform
attributes (VectorLayer roots and PathLayer leaves carry none). -/
inductive Layer where
  | mk (id : Nat) (group : Option GroupProps) (children : List Layer)

/-- Symbolic representation of the matrix values the source builds with
Matrix.fromTranslation, Matrix.fromRotation and Matrix.fromScaling. The claim
concerns which matrices appear and in what order; rotation entries involve
cosine and sine of the angle, so the constructor calls stay symbolic. -/
inductive MatrixTerm where
  | fromTranslation (x y : ℚ)
  | fromRotation (degrees : ℚ)
  | fromScaling (sx sy : ℚ)
  deriving DecidableEq, Repr

/-- The matrices one ancestor layer contributes inside getTransformsForLayer
(lines 1204 to 1215): the five pivot/translate/rotate/scale/unpivot matrices
for a GroupLayer and nothing for any other layer kind. -/
def layerTransforms (l : Layer) : List MatrixTerm :=
  match l with
  | .mk _ none _ => []
  | .mk _ (some g) _ =>
      [MatrixTerm.fromTranslation g.pivotX g.pivotY,
       MatrixTerm.fromTranslation g.translateX g.translateY,
       MatrixTerm.fromRotation g.rotation,
       MatrixTerm.fromScaling g.scaleX g.scaleY,
       MatrixTerm.fromTranslation (-g.pivotX) (-g.pivotY)]

mutual

/-- Embeds the inner getTransformsFn of getTransformsForLayer
(canvas.component.ts lines 1202 to 1226): when the current layer matches the
id, the accumulated parents each contribute their group matrices; otherwise the
children are searched depth-first with the current layer appended to the
parent list. -/
def getTransformsFn (layerId : Nat) (parents : List Layer) :
    Layer → Option (List MatrixTerm)
  | .mk i g children =>
    if i = layerId then some (parents.flatMap layerTransforms)
    else getTransformsFnList layerId (parents ++ [Layer.mk i g children]) children

/-- Depth-first search over a child list, returning the first defined result
(the for-loop of getTransformsFn). -/
def getTransformsFnList (layerId : Nat) (parents : List Layer) :
    List Layer → Option (List MatrixTerm)
  | [] => none
  | c :: cs =>
    match getTransformsFn layerId parents c with
    | some transforms => some transforms
    | none => getTransformsFnList layerId parents cs

end

/-- Embeds getTransformsForLayer (lines 1201 to 1228): the search starts at the
vector layer root with no accumulated parents. -/
def getTransformsForLayer (vectorLayer : Layer) (layerId : Nat) :
    Option (List MatrixTerm) :=
  getTransformsFn layerId [] vectorLayer

mutual

/-- Claim-side ancestor search: the accumulated parent list of the first layer
carrying the given id, in depth-first top-down order. -/
def findAncestors (layerId : Nat) (parents : List Layer) :
    Layer → Option (List Layer)
  | .mk i g children =>
    if i = layerId then some parents
    else findAncestorsList layerId (parents ++ [Layer.mk i g children]) children

/-- Depth-first ancestor search over a child list. -/
def findAncestorsList (layerId : Nat) (parents : List Layer) :
    List Layer → Option (List Layer)
  | [] => none
  | c :: cs =>
    match findAncestors layerId parents c with
    | some ancestors => some ancestors
    | none => findAncestorsList layerId parents cs

end

mutual

/-- Whether a layer with the given id occurs in the tree. -/
def containsId (layerId : Nat) : Layer → Bool
  | .mk i _ children => decide (i = layerId) || containsIdList layerId children

/-- Whether a layer with the given id occurs in a child list. -/
def containsIdList (layerId : Nat) : List Layer → Bool
  | [] => false
  | c :: cs => containsId layerId c || containsIdList layerId cs

end

/-- The transform search agrees with the claim-side ancestor search followed by
mapping every ancestor to its group matrices. -/
theorem getTransformsFn_eq_findAncestors (layerId : Nat) (parents : List Layer)
    (l : Layer) :
    getTransformsFn layerId parents l =
      (findAncestors layerId parents l).map (List.flatMap · layerTransforms) :=
  getTransformsFn.induct layerId
    (fun parents l => getTransformsFn layerId parents l =
      (findAncestors layerId parents l).map (List.flatMap · layerTransforms))
    (fun parents ls => getTransformsFnList layerId parents ls =
      (findAncestorsList layerId parents ls).map (List.flatMap · layerTransforms))
    (fun parents g cs => by simp [getTransformsFn, findAncestors])
    (fun parents i g cs hne ih => by
      simp only [getTransformsFn, findAncestors, if_neg hne]
      exact ih)
    (fun parents => by simp [getTransformsFnList, findAncestorsList])
    (fun parents c cs t hsome ih => by
      simp only [getTransformsFnList, findAncestorsList]
      dsimp only at ih
      rw [hsome] at ih
      simp only [hsome]
      rcases ha : findAncestors layerId parents c with _ | anc
      · rw [ha] at ih
        simp at ih
      · rw [ha] at ih
        simp only [ha]
        simp at ih ⊢
        exact ih)
    (fun parents c cs hnone ih ihs => by
      simp only [getTransformsFnList, findAncestorsList]
      dsimp only at ih ihs
      rw [hnone] at ih
      simp only [hnone]
      rcases ha : findAncestors layerId parents c with _ | anc
      · rw [ha] at ih
        simp only [ha]
        exact ihs
      · rw [ha] at ih
        simp at ih)
    parents l

/-- The ancestor search fails exactly when no layer carries the id. -/
theorem findAncestors_none_iff_not_containsId (layerId : Nat)
    (parents : List Layer) (l : Layer) :
    (findAncestors layerId parents l = none ↔ containsId layerId l = false) :=
  findAncestors.induct layerId
    (fun parents l =>
      findAncestors layerId parents l = none ↔ containsId layerId l = false)
    (fun parents ls =>
      findAncestorsList layerId parents ls = none ↔
        containsIdList layerId ls = false)
    (fun parents g cs => by simp [findAncestors, containsId])
    (fun parents i g cs hne ih => by
      simp only [findAncestors, containsId, if_neg hne]
      dsimp only at ih
      rw [ih]
      simp [hne])
    (fun parents => by simp [findAncestorsList, containsIdList])
    (fun parents c cs anc hsome ih => by
      simp only [findAncestorsList, containsIdList]
      dsimp only at ih
      rw [hsome] at ih
      simp only [hsome]
      simp at ih
      simp [ih])
    (fun parents c cs hnone ih ihs => by
      simp only [findAncestorsList, containsIdList]
      dsimp only at ih ihs
      rw [hnone] at ih
      simp only [hnone]
      simp at ih
      simp [ih, ihs])
    parents l

/-- C6: for every id present in the vector layer tree, getTransformsForLayer
returns exactly the five matrices translate-by-pivot, translate, rotate,
scale, translate-back-by-pivot for each ancestor GroupLayer in top-down order
(non-group ancestors contribute nothing), and it returns undefined when no
layer with that id exists. -/
theorem c6_transforms_for_layer_ancestor_groups (vectorLayer : Layer)
    (layerId : Nat) :
    getTransformsForLayer vectorLayer layerId =
      (findAncestors layerId [] vectorLayer).map
        (List.flatMap · layerTransforms) ∧
    (getTransformsForLayer vectorLayer layerId = none ↔
      containsId layerId vectorLayer = false) := by
  have h1 := getTransformsFn_eq_findAncestors layerId [] vectorLayer
  have h2 := findAncestors_none_iff_not_containsId layerId [] vectorLayer
  refine ⟨h1, ?_⟩
  rw [getTransformsForLayer, h1, ← h2]
  exact Option.map_eq_none'

/-- The app modes the component distinguishes (services AppMode). -/
inductive AppMode where
  | SelectPoints
  | AddPoints
  | SplitSubPaths
  | PairSubPaths
  deriving DecidableEq, Repr

/-- MIN_SNAP_THRESHOLD = 1.5 (canvas.component.ts line 30). -/
def MIN_SNAP_THRESHOLD : ℚ := 3/2

/-- SPLIT_POINT_RADIUS_FACTOR = 0.8 (line 32). -/
def SPLIT_POINT_RADIUS_FACTOR : ℚ := 4/5

/-- The HitTestOpts interface (lines 1380 to 1384); absent fields default to
false, matching an omitted optional property. -/
structure HitTestOpts where
  noPoints : Bool := false
  noSegments : Bool := false
  noShapes : Bool := false
  deriving DecidableEq, Repr

/-- The argument record performHitTest hands to Path.hitTest: the two optional
range predicates (undefined when not supplied) and the findShapesInRange flag. -/
structure HitTestArgs where
  isPointInRangeFn : Option (ℚ → Command → Bool)
  isSegmentInRangeFn : Option (ℚ → Command → Bool)
  findShapesInRange : Bool

/-- Embeds performHitTest (lines 1131 to 1154): the endpoint predicate is
supplied unless noPoints is set (radius scaled by the split-point factor for
split commands), the segment predicate is supplied unless noSegments is set
(half the stroke width), and findShapesInRange holds iff the active path layer
is filled and noShapes is not set. -/
def performHitTestArgs (activePathLayer : PathLayer) (largePointRadius : ℚ)
    (opts : HitTestOpts) : HitTestArgs :=
  let isPointInRangeFn : Option (ℚ → Command → Bool) :=
    if !opts.noPoints then
      some fun distance cmd =>
        let multiplyFactor := if cmd.isSplit then SPLIT_POINT_RADIUS_FACTOR else 1
        decide (distance ≤ largePointRadius * multiplyFactor)
    else none
  let isSegmentInRangeFn : Option (ℚ → Command → Bool) :=
    if !opts.noSegments then
      some fun distance _ =>
        decide (distance ≤ activePathLayer.strokeWidth / 2)
    else none
  let findShapesInRange := activePathLayer.isFilled && !opts.noShapes
  ⟨isPointInRangeFn, isSegmentInRangeFn, findShapesInRange⟩

/-- Embeds the hitTestOpts switch in onMouseDown (lines 852 to 858): AddPoints
and SplitSubPaths pass noPoints and noShapes; every other mode leaves the
options at their defaults. -/
def mouseDownHitTestOpts : AppMode → HitTestOpts
  | AppMode.AddPoints => { noPoints := true, noShapes := true }
  | AppMode.SplitSubPaths => { noPoints := true, noShapes := true }
  | _ => {}

/-- C7: performHitTest supplies the endpoint predicate iff noPoints is unset
and the segment predicate iff noSegments is unset, and sets findShapesInRange
iff the layer is filled and noShapes is unset; with the AddPoints and
SplitSubPaths mouse-down options (noPoints and noShapes set) only the segment
category is tested. -/
theorem c7_hit_test_category_selection (activePathLayer : PathLayer)
    (largePointRadius : ℚ) (opts : HitTestOpts) :
    ((performHitTestArgs activePathLayer largePointRadius opts).isPointInRangeFn.isSome
      = !opts.noPoints) ∧
    ((performHitTestArgs activePathLayer largePointRadius opts).isSegmentInRangeFn.isSome
      = !opts.noSegments) ∧
    ((performHitTestArgs activePathLayer largePointRadius opts).findShapesInRange
      = (activePathLayer.isFilled && !opts.noShapes)) ∧
    mouseDownHitTestOpts AppMode.AddPoints = ⟨true, false, true⟩ ∧
    mouseDownHitTestOpts AppMode.SplitSubPaths = ⟨true, false, true⟩ ∧
    (∀ mode, mode = AppMode.AddPoints ∨ mode = AppMode.SplitSubPaths →
      (performHitTestArgs activePathLayer largePointRadius
        (mouseDownHitTestOpts mode)).isPointInRangeFn = none ∧
      (performHitTestArgs activePathLayer largePointRadius
        (mouseDownHitTestOpts mode)).isSegmentInRangeFn.isSome = true ∧
      (performHitTestArgs activePathLayer largePointRadius
        (mouseDownHitTestOpts mode)).findShapesInRange = false) := by
  refine ⟨?_, ?_, rfl, rfl, rfl, ?_⟩
  · rcases h : opts.noPoints with _ | _ <;> simp [performHitTestArgs, h]
  · rcases h : opts.noSegments with _ | _ <;> simp [performHitTestArgs, h]
  · rintro mode (rfl | rfl) <;>
      exact ⟨rfl, rfl, by simp [performHitTestArgs, mouseDownHitTestOpts]⟩

/-- Witness for C7: with the AddPoints mouse-down options on a concrete filled
layer, no endpoint predicate is supplied, a segment predicate is supplied, and
shape testing is off. -/
theorem c7_hit_test_category_selection_witness :
    (performHitTestArgs ⟨⟨[]⟩, true, false, 2⟩ 1
      (mouseDownHitTestOpts AppMode.AddPoints)).isPointInRangeFn = none ∧
    (performHitTestArgs ⟨⟨[]⟩, true, false, 2⟩ 1
      (mouseDownHitTestOpts AppMode.AddPoints)).isSegmentInRangeFn.isSome = true ∧
    (performHitTestArgs ⟨⟨[]⟩, true, false, 2⟩ 1
      (mouseDownHitTestOpts AppMode.AddPoints)).findShapesInRange = false :=
  (c7_hit_test_category_selection ⟨⟨[]⟩, true, false, 2⟩ 1
    ⟨false, false, false⟩).2.2.2.2.2 AppMode.AddPoints (Or.inl rfl)

/-- The component state the AddPoints/SplitSubPaths gesture logic reads and
writes: the mouse-up action flag (line 98) and the recorded first projection
for a filled-subpath split (line 102). -/
structure SplitGestureState where
  shouldPerformActionOnMouseUp : Bool
  initialFilledSubPathProjOntoPath : Option ProjectionOntoPath
  deriving DecidableEq, Repr

/-- The initial component state: both fields cleared. -/
def initGestureState : SplitGestureState := ⟨false, none⟩

/-- Mouse events relevant to the AddPoints/SplitSubPaths gesture logic. The
mouseDown payload is the projection of the last segment hit of the mouse-down
hit test (none when no segment was hit); the mouseUp payload is the projection
of the mouse-up location onto the active path. -/
inductive CanvasEvent where
  | mouseDown (segmentHit : Option Projection)
  | mouseMove
  | mouseUp (projOntoPath : ProjectionOntoPath)
  | mouseLeave
  deriving DecidableEq, Repr

/-- Embeds the AddPoints/SplitSubPaths branch of onMouseDown (lines 882 to
890): when a segment is hit, the action flag becomes whether the projection
distance is strictly below MIN_SNAP_THRESHOLD; without a segment hit, and in
every other mode, the state is untouched. -/
def onMouseDownSplit (mode : AppMode) (s : SplitGestureState)
    (segmentHit : Option Projection) : SplitGestureState :=
  if mode = AppMode.AddPoints ∨ mode = AppMode.SplitSubPaths then
    match segmentHit with
    | some projection =>
        { s with shouldPerformActionOnMouseUp :=
            decide (projection.d < MIN_SNAP_THRESHOLD) }
    | none => s
  else s

/-- Embeds the AddPoints/SplitSubPaths branch of onMouseUp (lines 1049 to
1101). When the action flag is set and the recomputed projection distance is
strictly below MIN_SNAP_THRESHOLD, updateActivePath is called with the built
mutator (some operation list): AddPoints issues one splitCommand; SplitSubPaths
on a filled layer either records the first projection, resets it on a subpath
mismatch, or splits with the ordering of filledSubPathSplitOps; SplitSubPaths
on a stroked layer issues splitCommand then splitStrokedSubPath. When the
distance is out of range the initial projection is cleared and no update
happens (none). The flag is cleared whenever it was set. -/
def onMouseUpSplit (mode : AppMode) (isFilled isStroked : Bool)
    (s : SplitGestureState) (projOntoPath : ProjectionOntoPath) :
    SplitGestureState × Option (List PathOp) :=
  if mode = AppMode.AddPoints ∨ mode = AppMode.SplitSubPaths then
    if s.shouldPerformActionOnMouseUp then
      if projOntoPath.projection.d < MIN_SNAP_THRESHOLD then
        if mode = AppMode.AddPoints then
          (⟨false, s.initialFilledSubPathProjOntoPath⟩,
           some [PathOp.splitCommand projOntoPath.subIdx projOntoPath.cmdIdx
             projOntoPath.projection.t])
        else
          if isFilled then
            match s.initialFilledSubPathProjOntoPath with
            | none => (⟨false, some projOntoPath⟩, some [])
            | some initialProj =>
              if initialProj.subIdx ≠ projOntoPath.subIdx then
                (⟨false, none⟩, some [])
              else
                (⟨false, none⟩,
                 some (filledSubPathSplitOps projOntoPath.subIdx
                   initialProj.cmdIdx projOntoPath.cmdIdx
                   initialProj.projection.t projOntoPath.projection.t))
          else if isStroked then
            (⟨false, s.initialFilledSubPathProjOntoPath⟩,
             some [PathOp.splitCommand projOntoPath.subIdx projOntoPath.cmdIdx
               projOntoPath.projection.t,
              PathOp.splitStrokedSubPath projOntoPath.subIdx projOntoPath.cmdIdx])
          else
            (⟨false, s.initialFilledSubPathProjOntoPath⟩, some [])
      else
        (⟨false, none⟩, none)
    else
      (s, none)
  else
    (s, none)

/-- Embeds the AddPoints/SplitSubPaths branch of onMouseLeave (lines 1119 to
1128): the in-progress gesture is cancelled by clearing both the action flag
and the recorded initial projection. -/
def onMouseLeaveSplit (mode : AppMode) (s : SplitGestureState) :
    SplitGestureState :=
  if mode = AppMode.AddPoints ∨ mode = AppMode.SplitSubPaths then ⟨false, none⟩
  else s

/-- One event step of the gesture state machine, paired with the operation list
the step commits through updateActivePath (none when the state service is not
updated). -/
def stepSplit (mode : AppMode) (isFilled isStroked : Bool)
    (s : SplitGestureState) :
    CanvasEvent → SplitGestureState × Option (List PathOp)
  | CanvasEvent.mouseDown segmentHit => (onMouseDownSplit mode s segmentHit, none)
  | CanvasEvent.mouseMove => (s, none)
  | CanvasEvent.mouseUp projOntoPath =>
      onMouseUpSplit mode isFilled isStroked s projOntoPath
  | CanvasEvent.mouseLeave => (onMouseLeaveSplit mode s, none)

/-- Runs a list of events from a state, collecting each step commit output. -/
def runSplit (mode : AppMode) (isFilled isStroked : Bool)
    (s : SplitGestureState) :
    List CanvasEvent → SplitGestureState × List (Option (List PathOp))
  | [] => (s, [])
  | e :: es =>
    let stepped := stepSplit mode isFilled isStroked s e
    let rest := runSplit mode isFilled isStroked stepped.1 es
    (rest.1, stepped.2 :: rest.2)

/-- Running an appended event list runs the two pieces in sequence. -/
theorem runSplit_append (mode : AppMode) (isFilled isStroked : Bool)
    (s : SplitGestureState) (es1 es2 : List CanvasEvent) :
    runSplit mode isFilled isStroked s (es1 ++ es2) =
      ((runSplit mode isFilled isStroked
          (runSplit mode isFilled isStroked s es1).1 es2).1,
       (runSplit mode isFilled isStroked s es1).2 ++
        (runSplit mode isFilled isStroked
          (runSplit mode isFilled isStroked s es1).1 es2).2) := by
  induction es1 generalizing s with
  | nil => simp [runSplit]
  | cons e es ih => simp [runSplit, ih]

/-- A mouse up always leaves the action flag cleared (in the two split modes). -/
theorem onMouseUpSplit_clears_flag (mode : AppMode) (isFilled isStroked : Bool)
    (hm : mode = AppMode.AddPoints ∨ mode = AppMode.SplitSubPaths)
    (s : SplitGestureState) (projOntoPath : ProjectionOntoPath) :
    ((onMouseUpSplit mode isFilled isStroked s projOntoPath).1).shouldPerformActionOnMouseUp
      = false := by
  unfold onMouseUpSplit
  rw [if_pos hm]
  by_cases hflag : s.shouldPerformActionOnMouseUp = true
  · rw [if_pos hflag]
    split_ifs <;>
      first
      | rfl
      | (rcases s.initialFilledSubPathProjOntoPath with _ | initialProj
         · rfl
         · dsimp only
           split_ifs <;> rfl)
  · rw [if_neg hflag]
    exact Bool.not_eq_true _ |>.mp hflag

/-- A mouse up commits only when the flag was set and the recomputed distance
is strictly in range. -/
theorem onMouseUpSplit_commit_guard (mode : AppMode) (isFilled isStroked : Bool)
    (s : SplitGestureState) (projOntoPath : ProjectionOntoPath)
    (ops : List PathOp)
    (h : (onMouseUpSplit mode isFilled isStroked s projOntoPath).2 = some ops) :
    s.shouldPerformActionOnMouseUp = true ∧
    projOntoPath.projection.d < MIN_SNAP_THRESHOLD := by
  unfold onMouseUpSplit at h
  by_cases hmode : mode = AppMode.AddPoints ∨ mode = AppMode.SplitSubPaths
  · rw [if_pos hmode] at h
    by_cases hflag : s.shouldPerformActionOnMouseUp = true
    · rw [if_pos hflag] at h
      by_cases hd : projOntoPath.projection.d < MIN_SNAP_THRESHOLD
      · exact ⟨hflag, hd⟩
      · rw [if_neg hd] at h
        cases h
    · rw [if_neg hflag] at h
      cases h
  · rw [if_neg hmode] at h
    cases h

/-- Whenever the action flag is set in a reachable state, the trace ends with a
triggering in-range segment-hit mouse down followed only by moves and
segment-missing mouse downs. -/
theorem runSplit_flag_trigger (mode : AppMode) (isFilled isStroked : Bool)
    (hm : mode = AppMode.AddPoints ∨ mode = AppMode.SplitSubPaths)
    (events : List CanvasEvent)
    (hflag : (runSplit mode isFilled isStroked initGestureState
      events).1.shouldPerformActionOnMouseUp = true) :
    ∃ pre p post, events = pre ++ CanvasEvent.mouseDown (some p) :: post ∧
      p.d < MIN_SNAP_THRESHOLD ∧
      ∀ e ∈ post, e = CanvasEvent.mouseMove ∨ e = CanvasEvent.mouseDown none := by
  induction events using List.reverseRecOn with
  | nil => cases hflag
  | append_singleton es e ih =>
    rw [runSplit_append] at hflag
    cases e with
    | mouseMove =>
      simp only [runSplit, stepSplit] at hflag
      obtain ⟨pre, p, post, hdec, hp, hpost⟩ := ih hflag
      refine ⟨pre, p, post ++ [CanvasEvent.mouseMove], ?_, hp, ?_⟩
      · rw [hdec]
        simp
      · intro e he
        rcases List.mem_append.mp he with h | h
        · exact hpost e h
        · simp at h
          exact Or.inl h
    | mouseLeave =>
      simp only [runSplit, stepSplit, onMouseLeaveSplit, if_pos hm] at hflag
      cases hflag
    | mouseUp proj =>
      simp only [runSplit, stepSplit] at hflag
      rw [onMouseUpSplit_clears_flag mode isFilled isStroked hm] at hflag
      cases hflag
    | mouseDown segmentHit =>
      cases segmentHit with
      | none =>
        simp only [runSplit, stepSplit, onMouseDownSplit, if_pos hm] at hflag
        obtain ⟨pre, p, post, hdec, hp, hpost⟩ := ih hflag
        refine ⟨pre, p, post ++ [CanvasEvent.mouseDown none], ?_, hp, ?_⟩
        · rw [hdec]
          simp
        · intro e he
          rcases List.mem_append.mp he with h | h
          · exact hpost e h
          · simp at h
            exact Or.inr h
      | some p =>
        simp only [runSplit, stepSplit, onMouseDownSplit, if_pos hm] at hflag
        refine ⟨es, p, [], by simp, ?_, by simp⟩
        exact of_decide_eq_true hflag

/-- C8: in AddPoints or SplitSubPaths mode, a structural edit is committed on
mouse up only when the triggering mouse down had a segment projection distance
strictly below MIN_SNAP_THRESHOLD (with no mouse up or leave and no further
segment hit since) and the recomputed projection distance at mouse up is again
strictly below MIN_SNAP_THRESHOLD; with the flag clear or the distance out of
range, no mutator is built and the state service is not updated. -/
theorem c8_structural_edit_needs_snap_down_and_up
    (mode : AppMode) (isFilled isStroked : Bool)
    (hm : mode = AppMode.AddPoints ∨ mode = AppMode.SplitSubPaths)
    (events : List CanvasEvent) (projOntoPath : ProjectionOntoPath)
    (ops : List PathOp)
    (hcommit : (onMouseUpSplit mode isFilled isStroked
      (runSplit mode isFilled isStroked initGestureState events).1
      projOntoPath).2 = some ops) :
    projOntoPath.projection.d < MIN_SNAP_THRESHOLD ∧
    (∃ pre p post, events = pre ++ CanvasEvent.mouseDown (some p) :: post ∧
      p.d < MIN_SNAP_THRESHOLD ∧
      ∀ e ∈ post, e = CanvasEvent.mouseMove ∨ e = CanvasEvent.mouseDown none) ∧
    (∀ s2, s2.shouldPerformActionOnMouseUp = false →
      (onMouseUpSplit mode isFilled isStroked s2 projOntoPath).2 = none) ∧
    (∀ s2 proj2, ¬ proj2.projection.d < MIN_SNAP_THRESHOLD →
      (onMouseUpSplit mode isFilled isStroked s2 proj2).2 = none) := by
  obtain ⟨hflag, hd⟩ := onMouseUpSplit_commit_guard mode isFilled isStroked _ _ _ hcommit
  refine ⟨hd, runSplit_flag_trigger mode isFilled isStroked hm events hflag, ?_, ?_⟩
  · intro s2 hs2
    unfold onMouseUpSplit
    rw [if_pos hm, if_neg (by simp [hs2])]
  · intro s2 proj2 hd2
    unfold onMouseUpSplit
    rw [if_pos hm]
    by_cases hs2 : s2.shouldPerformActionOnMouseUp = true
    · rw [if_pos hs2, if_neg hd2]
    · rw [if_neg hs2]

/-- Witness for C8: after an in-range mouse down (distance 1) and an in-range
mouse up (distance 1), a commit happens, and at a cleared state the same mouse
up commits nothing. -/
theorem c8_structural_edit_needs_snap_down_and_up_witness :
    (onMouseUpSplit AppMode.AddPoints false true ⟨false, none⟩
      ⟨0, 0, ⟨0, 0, 1/2, 1⟩⟩).2 = none :=
  (c8_structural_edit_needs_snap_down_and_up AppMode.AddPoints false true
    (Or.inl rfl) [CanvasEvent.mouseDown (some ⟨0, 0, 0, 1⟩)]
    ⟨0, 0, ⟨0, 0, 1/2, 1⟩⟩ [PathOp.splitCommand 0 0 (1/2)]
    (by
      simp [runSplit, stepSplit, onMouseDownSplit, onMouseUpSplit,
        initGestureState, MIN_SNAP_THRESHOLD]
      norm_num)).2.2.1 ⟨false, none⟩ rfl

/-- While the action flag is clear, and no in-range segment-hit mouse down
arrives, no step commits anything and the flag stays clear. -/
theorem runSplit_no_commit_while_cleared (mode : AppMode)
    (isFilled isStroked : Bool)
    (hm : mode = AppMode.AddPoints ∨ mode = AppMode.SplitSubPaths) :
    ∀ post : List CanvasEvent,
      (∀ p, CanvasEvent.mouseDown (some p) ∈ post →
        ¬ p.d < MIN_SNAP_THRESHOLD) →
      ∀ s : SplitGestureState, s.shouldPerformActionOnMouseUp = false →
        (∀ o ∈ (runSplit mode isFilled isStroked s post).2, o = none) ∧
        (runSplit mode isFilled isStroked s
          post).1.shouldPerformActionOnMouseUp = false := by
  intro post
  induction post with
  | nil =>
    intro hpost s hs
    exact ⟨by simp [runSplit], by simpa [runSplit] using hs⟩
  | cons e es ih =>
    intro hpost s hs
    have hpost2 : ∀ p, CanvasEvent.mouseDown (some p) ∈ es →
        ¬ p.d < MIN_SNAP_THRESHOLD :=
      fun p hp => hpost p (List.mem_cons_of_mem _ hp)
    cases e with
    | mouseMove =>
      obtain ⟨ho, hf⟩ := ih hpost2 s hs
      simp only [runSplit, stepSplit]
      exact ⟨fun o hmem => by
        rcases List.mem_cons.mp hmem with h | h
        · exact h
        · exact ho o h, hf⟩
    | mouseLeave =>
      obtain ⟨ho, hf⟩ := ih hpost2 ⟨false, none⟩ rfl
      simp only [runSplit, stepSplit, onMouseLeaveSplit, if_pos hm]
      exact ⟨fun o hmem => by
        rcases List.mem_cons.mp hmem with h | h
        · exact h
        · exact ho o h, hf⟩
    | mouseUp proj =>
      have hstep : onMouseUpSplit mode isFilled isStroked s proj = (s, none) := by
        unfold onMouseUpSplit
        rw [if_pos hm, if_neg (by simp [hs])]
      obtain ⟨ho, hf⟩ := ih hpost2 s hs
      simp only [runSplit, stepSplit, hstep]
      exact ⟨fun o hmem => by
        rcases List.mem_cons.mp hmem with h | h
        · exact h
        · exact ho o h, hf⟩
    | mouseDown segmentHit =>
      cases segmentHit with
      | none =>
        have hstep : onMouseDownSplit mode s none = s := by
          simp [onMouseDownSplit, hm]
        obtain ⟨ho, hf⟩ := ih hpost2 s hs
        simp only [runSplit, stepSplit, hstep]
        exact ⟨fun o hmem => by
          rcases List.mem_cons.mp hmem with h | h
          · exact h
          · exact ho o h, hf⟩
      | some p =>
        have hd : ¬ p.d < MIN_SNAP_THRESHOLD := hpost p (by simp)
        have hstep : onMouseDownSplit mode s (some p) =
            { s with shouldPerformActionOnMouseUp := false } := by
          simp [onMouseDownSplit, hm, hd]
        obtain ⟨ho, hf⟩ := ih hpost2
          { s with shouldPerformActionOnMouseUp := false } rfl
        simp only [runSplit, stepSplit, hstep]
        exact ⟨fun o hmem => by
          rcases List.mem_cons.mp hmem with h | h
          · exact h
          · exact ho o h, hf⟩

/-- C9: in AddPoints or SplitSubPaths mode, a mouseleave clears both
shouldPerformActionOnMouseUp and initialFilledSubPathProjOntoPath (from any
mid-gesture state), and afterwards no step commits anything on any subsequent
mouse up until an in-range segment-hit mouse down occurs. -/
theorem c9_mouse_leave_cancels_pending_action
    (mode : AppMode) (isFilled isStroked : Bool)
    (hm : mode = AppMode.AddPoints ∨ mode = AppMode.SplitSubPaths)
    (s : SplitGestureState) (post : List CanvasEvent)
    (hpost : ∀ p, CanvasEvent.mouseDown (some p) ∈ post →
      ¬ p.d < MIN_SNAP_THRESHOLD) :
    stepSplit mode isFilled isStroked s CanvasEvent.mouseLeave =
      (⟨false, none⟩, none) ∧
    ∀ o ∈ (runSplit mode isFilled isStroked
        (stepSplit mode isFilled isStroked s CanvasEvent.mouseLeave).1 post).2,
      o = none := by
  have hstep : stepSplit mode isFilled isStroked s CanvasEvent.mouseLeave =
      (⟨false, none⟩, none) := by
    simp [stepSplit, onMouseLeaveSplit, hm]
  refine ⟨hstep, ?_⟩
  rw [hstep]
  exact (runSplit_no_commit_while_cleared mode isFilled isStroked hm post hpost
    ⟨false, none⟩ rfl).1

/-- Witness for C9: a mouseleave in AddPoints mode clears a mid-gesture state
with the flag set and an initial projection recorded. -/
theorem c9_mouse_leave_cancels_pending_action_witness :
    stepSplit AppMode.AddPoints false true
      ⟨true, some ⟨0, 0, ⟨0, 0, 0, 0⟩⟩⟩ CanvasEvent.mouseLeave =
      (⟨false, none⟩, none) :=
  (c9_mouse_leave_cancels_pending_action AppMode.AddPoints false true
    (Or.inl rfl) ⟨true, some ⟨0, 0, ⟨0, 0, 0, 0⟩⟩⟩ [] (by simp)).1

/-- Modelled from the spec (section 4.3): splitCommandInHalf computes the
parameter bisecting the arc length and delegates to splitCommand. The numeric
arc-length bisection of the engine is irrelevant to the claims settled here, so
the parameter is abstracted to 1/2. -/
def Path.splitCommandInHalf (p : Path) (subIdx cmdIdx : Nat) :
    Except PathError Path :=
  p.splitCommand subIdx cmdIdx (1/2)

/-- Modelled from the spec (section 4.3): unsplitCommand validates indices,
requires the command at cmdIdx to carry a recorded split marker (NotSplitError
otherwise), and merges it with its immediate split sibling back into one
command; the merged command keeps the sibling kind and spans from the first
half start to the sibling end. -/
def Path.unsplitCommand (p : Path) (subIdx cmdIdx : Nat) :
    Except PathError Path :=
  match p.subPaths[subIdx]? with
  | none => Except.error PathError.indexOutOfRange
  | some sp =>
    match sp.commands[cmdIdx]?, sp.commands[cmdIdx + 1]? with
    | some c, some sibling =>
      if c.isSplit then
        Except.ok ⟨p.subPaths.set subIdx
          ⟨sp.commands.take cmdIdx ++
            ⟨sibling.svgChar,
             [c.points.head?.getD ⟨0, 0⟩, sibling.points.getLast?.getD ⟨0, 0⟩],
             sibling.isSplit⟩ :: sp.commands.drop (cmdIdx + 2)⟩⟩
      else
        Except.error PathError.notSplit
    | _, _ => Except.error PathError.indexOutOfRange

/-- Modelled from the spec (section 4.3): reverseSubPath reverses the command
order and mirrors each command direction so the same geometry is traced
backward. -/
def Path.reverseSubPath (p : Path) (subIdx : Nat) : Except PathError Path :=
  match p.subPaths[subIdx]? with
  | none => Except.error PathError.indexOutOfRange
  | some sp =>
    Except.ok ⟨p.subPaths.set subIdx
      ⟨(sp.commands.map fun c => ⟨c.svgChar, c.points.reverse, c.isSplit⟩).reverse⟩⟩

/-- Modelled from the spec (section 4.3): shiftSubPathForward rotates the
starting command of a closed subpath forward by one position; an open subpath
fails with NotClosedError. -/
def Path.shiftSubPathForward (p : Path) (subIdx : Nat) : Except PathError Path :=
  match p.subPaths[subIdx]? with
  | none => Except.error PathError.indexOutOfRange
  | some sp =>
    if sp.isClosed then
      Except.ok ⟨p.subPaths.set subIdx ⟨sp.commands.rotateLeft 1⟩⟩
    else
      Except.error PathError.notClosed

/-- Modelled from the spec (section 4.3): shiftSubPathBack rotates the starting
command of a closed subpath backward by one position; an open subpath fails
with NotClosedError. -/
def Path.shiftSubPathBack (p : Path) (subIdx : Nat) : Except PathError Path :=
  match p.subPaths[subIdx]? with
  | none => Except.error PathError.indexOutOfRange
  | some sp =>
    if sp.isClosed then
      Except.ok ⟨p.subPaths.set subIdx ⟨sp.commands.rotateRight 1⟩⟩
    else
      Except.error PathError.notClosed

/-- Hover kinds from the hover service, as consumed by updateCurrentHoverFn. -/
inductive HoverType where
  | Command
  | Split
  | Unsplit
  | Reverse
  | ShiftForward
  | ShiftBack
  | SubPath
  deriving DecidableEq, Repr

/-- A hover: its type and the (subIdx, cmdIdx) index it addresses. -/
structure Hover where
  type : HoverType
  subIdx : Nat
  cmdIdx : Nat
  deriving DecidableEq, Repr

/-- The pieces of component and application state updateCurrentHoverFn can read
or write: the component-local hover preview path and the active path held by
the state service. -/
structure HoverComponentState where
  currentHoverPreviewPath : Option Path
  stateServiceActivePath : Path
  deriving DecidableEq, Repr

/-- The snapshot built from activePath.mutate() for one hover (the switch at
lines 218 to 234): defined for the five mutating hover kinds, untouched
(undefined) for the rest. -/
def buildHoverPreviewPath (activePath : Path) (hover : Hover) : Option Path :=
  match hover.type with
  | HoverType.Split =>
      (activePath.splitCommandInHalf hover.subIdx hover.cmdIdx).toOption
  | HoverType.Unsplit =>
      (activePath.unsplitCommand hover.subIdx hover.cmdIdx).toOption
  | HoverType.Reverse => (activePath.reverseSubPath hover.subIdx).toOption
  | HoverType.ShiftForward => (activePath.shiftSubPathForward hover.subIdx).toOption
  | HoverType.ShiftBack => (activePath.shiftSubPathBack hover.subIdx).toOption
  | _ => none

/-- Embeds updateCurrentHoverFn (lines 210 to 238): a preview path is built
from the current active path when layers should be drawn and a hover is
present, and only the component-local currentHoverPreviewPath field is
assigned before the overlays are redrawn; stateService.updateActivePath is
never called. -/
def updateCurrentHoverFn (s : HoverComponentState) (shouldDrawLayers : Bool)
    (hover : Option Hover) : HoverComponentState :=
  let previewPath : Option Path :=
    match hover with
    | some h =>
      if shouldDrawLayers then buildHoverPreviewPath s.stateServiceActivePath h
      else none
    | none => none
  { s with currentHoverPreviewPath := previewPath }

/-- C10: updating the hover preview assigns only the component-local preview
field (computed from a mutate() snapshot of the active path for the Split,
Unsplit, Reverse, ShiftForward and ShiftBack hover kinds); the state service
active path observed by the rest of the application is unchanged for every
state, draw flag and hover. -/
theorem c10_hover_preview_leaves_active_path_unchanged
    (s : HoverComponentState) (shouldDrawLayers : Bool) (hover : Option Hover) :
    (updateCurrentHoverFn s shouldDrawLayers hover).stateServiceActivePath =
      s.stateServiceActivePath ∧
    (updateCurrentHoverFn s shouldDrawLayers hover).currentHoverPreviewPath =
      (match hover with
       | some h =>
         if shouldDrawLayers then buildHoverPreviewPath s.stateServiceActivePath h
         else none
       | none => none) :=
  ⟨rfl, rfl⟩

end ShapeShifter
